import Mathlib

/-!
Verification of the night-sky star-field generator and animation driver
(`src/components/NightSky.tsx`, plus an unnamed variant revision of the same
component with per-star colour fields).

Modelling conventions:
* JavaScript 32-bit coercions (`>>> 0`, `Math.imul`, `^`, `|`, `>>>`) are
  embedded over `Nat` with explicit `% 2^32`; bitwise operators act on the
  unsigned 32-bit bit pattern, which coincides for signed and unsigned views.
* JavaScript numbers that stay dyadic rationals below 2^53 are exact, so the
  generator's state accumulator is an exact `Nat` and draw values live in `ℚ`.
* Decimal literals of the source (`0.35`, `5.5`, `0.08`, …) become the exact
  rationals those decimals denote.
-/

/-- Modulus `2^32` of all JavaScript 32-bit coercions. -/
def U32 : ℕ := 4294967296

/-- The odd additive constant `0x6d2b79f5` of the seeded generator. -/
def rngInc : ℕ := 0x6d2b79f5

/-- The two mixing rounds the generator applies to its advanced state:
`let result = Math.imul(state ^ (state >>> 15), 1 | state);
 result ^= result + Math.imul(result ^ (result >>> 7), 61 | result);
 return ((result ^ (result >>> 14)) >>> 0)` — the returned 32-bit word,
before division by `4294967296`. -/
def rngMix (state : ℕ) : ℕ :=
  let m := state % U32
  let r1 := ((m ^^^ (m >>> 15)) * (m ||| 1)) % U32
  let r2 := r1 ^^^ ((r1 + ((r1 ^^^ (r1 >>> 7)) * (r1 ||| 61)) % U32) % U32)
  (r2 ^^^ (r2 >>> 14)) % U32

/-- The closure state captured by `createRng`: the mutable `state` variable. -/
structure Rng where
  state : ℕ
deriving DecidableEq, Repr

/-- Embedding of `createRng = (seed) => ...`: capture `state = seed >>> 0`. -/
def createRng (seed : ℕ) : Rng :=
  ⟨seed % U32⟩

/-- One call of the closure returned by `createRng`:
`state += 0x6d2b79f5` followed by the mixing rounds; yields the produced
32-bit word and the generator after the call. -/
def Rng.step (g : Rng) : ℕ × Rng :=
  let s := g.state + rngInc
  (rngMix s, ⟨s⟩)

/-- The 32-bit word produced by the `n`-th call (0-based) of the generator. -/
def Rng.nth (g : Rng) : ℕ → ℕ
  | 0 => g.step.1
  | n + 1 => g.step.2.nth n

/-- Normalisation `word / 4294967296` of a produced word to a value in `[0,1)`. -/
def rngValue (w : ℕ) : ℚ :=
  (w : ℚ) / 4294967296

/-- The value in `[0,1)` returned by the `n`-th call of `createRng seed`. -/
def draw (seed n : ℕ) : ℚ :=
  rngValue ((createRng seed).nth n)

/-- JavaScript `Math.round` on the non-negative numbers used here:
round-half-up, `⌊q + 1/2⌋`. -/
def jsRound (q : ℚ) : ℤ :=
  ⌊q + 1 / 2⌋

namespace NightSky

def STAR_COUNT : ℕ := 220

def STAR_LAYERS : ℕ := 4

/-- A star descriptor of `src/components/NightSky.tsx`. -/
structure GeneratedStar where
  id : String
  top : ℚ
  left : ℚ
  scale : ℚ
  twinkleDelay : ℚ
  twinkleDuration : ℚ
deriving DecidableEq, Repr

/-- The descriptor built for one index inside `createStarPositions`: a fresh
generator seeded with `seedOffset + index * 17`, then five sequential calls
`random()` feeding top, left, scale, twinkleDelay, twinkleDuration. -/
def buildStar (seedOffset index : ℕ) : GeneratedStar :=
  let seed := seedOffset + index * 17
  { id := toString seedOffset ++ "-" ++ toString index
    top := draw seed 0 * 100
    left := draw seed 1 * 100
    scale := 0.35 + draw seed 2 * 1
    twinkleDelay := draw seed 3 * 14
    twinkleDuration := 3 + draw seed 4 * 5.5 }

/-- Embedding of `createStarPositions`: one `buildStar` per index of `Array.from` with the given length. -/
def createStarPositions (count seedOffset : ℕ) : List GeneratedStar :=
  (List.range count).map (buildStar seedOffset)

/-- Stars per layer: `Math.round(STAR_COUNT / STAR_LAYERS)`. -/
def layerStarCount : ℕ :=
  (jsRound ((STAR_COUNT : ℚ) / STAR_LAYERS)).toNat

/-- Embedding of `starLayers`: one call of `createStarPositions` per layer, with seed
offset `layerIndex * 311`. -/
def starLayers : List (List GeneratedStar) :=
  (List.range STAR_LAYERS).map fun layerIndex =>
    createStarPositions layerStarCount (layerIndex * 311)

/-- The per-star generator seeds `seedOffset + index * 17` used across the
whole configured field (`seedOffset = layerIndex * 311`). -/
def starSeeds : List ℕ :=
  ((List.range STAR_LAYERS).map fun layerIndex =>
    (List.range layerStarCount).map fun index => layerIndex * 311 + index * 17).flatten

end NightSky

namespace StarVariant

def STAR_COUNT : ℕ := 750

def STAR_LAYERS : ℕ := 3

/-- A star descriptor of the unnamed variant revision of the component,
with the additional colour/glow/shape fields. -/
structure GeneratedStar where
  id : String
  top : ℚ
  left : ℚ
  scale : ℚ
  twinkleDelay : ℚ
  twinkleDuration : ℚ
  colorHue : ℚ
  colorSaturation : ℚ
  glowIntensity : ℚ
  shapeVariation : ℚ
deriving DecidableEq, Repr

/-- The variant descriptor for one index. The source calls `random()`
sequentially, so the draw index of `glowIntensity`/`shapeVariation` depends
on the colour branch: the pure-white branch consumes no draws for
hue/saturation, the other two branches consume two. -/
def buildStar (seedOffset index : ℕ) : GeneratedStar :=
  let seed := seedOffset + index * 17
  let top := draw seed 0 * 100
  let left := draw seed 1 * 100
  let scale := 0.35 + draw seed 2 * 1
  let twinkleDelay := draw seed 3 * 14
  let twinkleDuration := 3 + draw seed 4 * 5.5
  let colorType := draw seed 5
  let id := toString seedOffset ++ "-" ++ toString index
  if colorType < 0.7 then
    { id := id, top := top, left := left, scale := scale,
      twinkleDelay := twinkleDelay, twinkleDuration := twinkleDuration,
      colorHue := 200 + draw seed 6 * 20
      colorSaturation := 20 + draw seed 7 * 30
      glowIntensity := 0.6 + draw seed 8 * 0.4
      shapeVariation := draw seed 9 }
  else if colorType < 0.9 then
    { id := id, top := top, left := left, scale := scale,
      twinkleDelay := twinkleDelay, twinkleDuration := twinkleDuration,
      colorHue := 0
      colorSaturation := 0
      glowIntensity := 0.6 + draw seed 6 * 0.4
      shapeVariation := draw seed 7 }
  else
    { id := id, top := top, left := left, scale := scale,
      twinkleDelay := twinkleDelay, twinkleDuration := twinkleDuration,
      colorHue := 30 + draw seed 6 * 30
      colorSaturation := 40 + draw seed 7 * 40
      glowIntensity := 0.6 + draw seed 8 * 0.4
      shapeVariation := draw seed 9 }

/-- Variant `createStarPositions`. -/
def createStarPositions (count seedOffset : ℕ) : List GeneratedStar :=
  (List.range count).map (buildStar seedOffset)

/-- Variant stars per layer: `Math.round(750 / 3)`. -/
def layerStarCount : ℕ :=
  (jsRound ((STAR_COUNT : ℚ) / STAR_LAYERS)).toNat

/-- Variant `starLayers`. -/
def starLayers : List (List GeneratedStar) :=
  (List.range STAR_LAYERS).map fun layerIndex =>
    createStarPositions layerStarCount (layerIndex * 311)

/-- Variant per-star generator seeds across the whole configured field. -/
def starSeeds : List ℕ :=
  ((List.range STAR_LAYERS).map fun layerIndex =>
    (List.range layerStarCount).map fun index => layerIndex * 311 + index * 17).flatten

end StarVariant

/-- The easing factor of `updateParallax`. -/
def easing : ℚ := 0.08

/-- One animation frame of `updateParallax` on one axis:
`smoothRef.current.x += (targetRef.current.x - smoothRef.current.x) * easing`. -/
def easeStep (target smoothed : ℚ) : ℚ :=
  smoothed + (target - smoothed) * easing

/-- Iterate `n` easing frames toward a target held fixed. -/
def easeIter (target : ℚ) : ℕ → ℚ → ℚ
  | 0, s => s
  | n + 1, s => easeIter target n (easeStep target s)

namespace Shooting

/-- A shooting-star entry of the active list. -/
structure ShootingStar where
  id : ℕ
  top : ℚ
  left : ℚ
  duration : ℚ
  delay : ℚ
deriving DecidableEq, Repr

/-- The five `Math.random()` draws consumed by one `spawnShootingStar` call,
in call order: duration, top, left, delay, next spawn interval. They are
external entropy, so they enter the model as event parameters. -/
structure SpawnDraws where
  rDuration : ℚ
  rTop : ℚ
  rLeft : ℚ
  rDelay : ℚ
  rNext : ℚ
deriving DecidableEq, Repr

/-- The star record built by `spawnShootingStar` from the current counter:
`id = starIdRef.current++`, `top = Math.random() * 40`,
`left = 40 + Math.random() * 20`, `duration = 1.2 + Math.random() * 0.8`,
`delay = Math.random() * 0.3`. -/
def mkShootingStar (nextId : ℕ) (d : SpawnDraws) : ShootingStar :=
  { id := nextId
    top := d.rTop * 40
    left := 40 + d.rLeft * 20
    duration := 1.2 + d.rDuration * 0.8
    delay := d.rDelay * 0.3 }

/-- What a pending timer does when it fires. -/
inductive TimerKind
  | spawn
  | removal (starId : ℕ)
deriving DecidableEq, Repr

/-- A timer scheduled through `window.setTimeout` and not yet fired or
cancelled. -/
structure Timer where
  id : ℕ
  kind : TimerKind
  delayMs : ℚ
deriving DecidableEq, Repr

/-- State of the shooting-star effect: the component state and refs
(`shootingStars`, `starIdRef`, `removalTimeoutsRef`, the `timeoutId`
variable) together with the browser's pending-timer queue. -/
structure EffectState where
  shootingStars : List ShootingStar
  starId : ℕ
  removalTimeouts : List ℕ
  timeoutId : Option ℕ
  pendingTimers : List Timer
  nextTimerId : ℕ
deriving DecidableEq, Repr

/-- The state right after mount: the effect body has scheduled the first
spawn 2500 ms out and recorded its timer id in `timeoutId`. -/
def initialEffect : EffectState :=
  { shootingStars := []
    starId := 0
    removalTimeouts := []
    timeoutId := some 0
    pendingTimers := [⟨0, TimerKind.spawn, 2500⟩]
    nextTimerId := 1 }

/-- Look up a pending timer by its id. -/
def findTimer (s : EffectState) (tid : ℕ) : Option Timer :=
  s.pendingTimers.find? fun t => t.id == tid

/-- The event loop fires pending timer `tid` (a no-op when no such timer is
pending): the timer leaves the queue and its callback runs.
A spawn timer runs `spawnShootingStar`: append the new star, schedule its
removal after `(duration + delay) * 1000` ms and track that timer in the
removal set, then schedule the next spawn after `4000 + Math.random() * 5000`
ms into `timeoutId`. A removal timer filters its star id out of the active
list and removes itself from the removal set. -/
def applyFire (s : EffectState) (tid : ℕ) (d : SpawnDraws) : EffectState :=
  match findTimer s tid with
  | none => s
  | some t =>
    let s0 := { s with pendingTimers := s.pendingTimers.filter fun u => u.id != tid }
    match t.kind with
    | TimerKind.spawn =>
      let star := mkShootingStar s0.starId d
      let removalTid := s0.nextTimerId
      let spawnTid := s0.nextTimerId + 1
      { shootingStars := s0.shootingStars ++ [star]
        starId := s0.starId + 1
        removalTimeouts := s0.removalTimeouts ++ [removalTid]
        timeoutId := some spawnTid
        pendingTimers := s0.pendingTimers ++
          [⟨removalTid, TimerKind.removal star.id, (star.duration + star.delay) * 1000⟩,
            ⟨spawnTid, TimerKind.spawn, 4000 + d.rNext * 5000⟩]
        nextTimerId := s0.nextTimerId + 2 }
    | TimerKind.removal k =>
      { s0 with
        shootingStars := s0.shootingStars.filter fun st => st.id != k
        removalTimeouts := s0.removalTimeouts.filter fun r => r != tid }

/-- The effect cleanup: `clearTimeout(timeoutId)`, `clearTimeout` on every
timer in the removal set, then clear the set. -/
def cleanup (s : EffectState) : EffectState :=
  { s with
    pendingTimers := s.pendingTimers.filter fun t =>
      !(some t.id == s.timeoutId || s.removalTimeouts.contains t.id)
    removalTimeouts := [] }

/-- Run from the post-mount state through a list of timer-firing events. -/
def run (events : List (ℕ × SpawnDraws)) : EffectState :=
  events.foldl (fun s e => applyFire s e.1 e.2) initialEffect

/-- A pending timer is tracked by the effect: a spawn timer is the one in
`timeoutId`, a removal timer is in the removal set. -/
def timerTracked (s : EffectState) (t : Timer) : Prop :=
  match t.kind with
  | TimerKind.spawn => s.timeoutId = some t.id
  | TimerKind.removal _ => t.id ∈ s.removalTimeouts

/-- Invariant of every reachable effect state: pending-timer ids are fresh
and distinct, every pending timer is tracked, and star ids are strictly
increasing and below the counter. -/
def Inv (s : EffectState) : Prop :=
  (∀ t ∈ s.pendingTimers, t.id < s.nextTimerId) ∧
  (s.pendingTimers.map fun t => t.id).Nodup ∧
  (∀ t ∈ s.pendingTimers, timerTracked s t) ∧
  ((s.shootingStars.map fun st => st.id).Pairwise (· < ·)) ∧
  (∀ st ∈ s.shootingStars, st.id < s.starId)

end Shooting

namespace Parallax

/-- State of the parallax driver: the `targetRef`, `smoothRef` and `rafRef`
refs together with the browser's queue of requested animation frames. -/
structure PxState where
  target : ℚ × ℚ
  smooth : ℚ × ℚ
  raf : Option ℕ
  framesPending : List ℕ
  nextFrameId : ℕ
deriving DecidableEq, Repr

/-- The state after the effect body runs: targets zero, nothing scheduled. -/
def initialPx : PxState :=
  ⟨(0, 0), (0, 0), none, [], 0⟩

/-- Embedding of `requestAnimationFrame`: queue a fresh callback and return its id. -/
def requestFrame (s : PxState) : PxState × ℕ :=
  ({ s with
      framesPending := s.framesPending ++ [s.nextFrameId]
      nextFrameId := s.nextFrameId + 1 },
    s.nextFrameId)

/-- Embedding of `handlePointerMove`: recompute the target from the cursor position
relative to the container bounding box (fraction minus 0.5, doubled), then
request `updateParallax` only if `rafRef.current === null`. -/
def handlePointerMove (s : PxState)
    (clientX clientY rectLeft rectTop rectWidth rectHeight : ℚ) : PxState :=
  let relativeX := (clientX - rectLeft) / rectWidth - 0.5
  let relativeY := (clientY - rectTop) / rectHeight - 0.5
  let s1 := { s with target := (relativeX * 2, relativeY * 2) }
  match s1.raf with
  | some _ => s1
  | none =>
    let p := requestFrame s1
    { p.1 with raf := some p.2 }

/-- Embedding of `handlePointerLeave`: reset the target to the origin, then request
`updateParallax` only if `rafRef.current === null`. -/
def handlePointerLeave (s : PxState) : PxState :=
  let s1 := { s with target := (0, 0) }
  match s1.raf with
  | some _ => s1
  | none =>
    let p := requestFrame s1
    { p.1 with raf := some p.2 }

/-- A queued `updateParallax` callback with id `fid` fires: the browser
dequeues it, both axes ease one step toward the target, and the callback
re-schedules itself iff either axis is still more than 0.001 away,
otherwise it records `rafRef.current = null`. -/
def fireFrame (s : PxState) (fid : ℕ) : PxState :=
  if fid ∈ s.framesPending then
    let s0 := { s with framesPending := s.framesPending.filter fun f => f != fid }
    let sx := easeStep s0.target.1 s0.smooth.1
    let sy := easeStep s0.target.2 s0.smooth.2
    let s1 := { s0 with smooth := (sx, sy) }
    let deltaX := |s1.target.1 - sx|
    let deltaY := |s1.target.2 - sy|
    if deltaX > 0.001 ∨ deltaY > 0.001 then
      let p := requestFrame s1
      { p.1 with raf := some p.2 }
    else
      { s1 with raf := none }
  else s

/-- The driver's observable events. -/
inductive PxEvent
  | move (clientX clientY rectLeft rectTop rectWidth rectHeight : ℚ)
  | leave
  | frame (fid : ℕ)

/-- One event of the driver. -/
def pxStep (s : PxState) : PxEvent → PxState
  | PxEvent.move cx cy rl rt rWidth rHeight => handlePointerMove s cx cy rl rt rWidth rHeight
  | PxEvent.leave => handlePointerLeave s
  | PxEvent.frame fid => fireFrame s fid

/-- Run the driver from its initial state through a list of events. -/
def pxRun (events : List PxEvent) : PxState :=
  events.foldl pxStep initialPx

end Parallax

theorem rngMix_lt (state : ℕ) : rngMix state < U32 := by
  unfold rngMix
  exact Nat.mod_lt _ (by norm_num [U32])

theorem Rng.nth_eq (st n : ℕ) : Rng.nth ⟨st⟩ n = rngMix (st + (n + 1) * rngInc) := by
  induction n generalizing st with
  | zero => simp [Rng.nth, Rng.step]
  | succ n ih =>
    show Rng.nth ⟨st + rngInc⟩ n = _
    rw [ih]
    ring_nf

theorem draw_nonneg (seed n : ℕ) : 0 ≤ draw seed n := by
  unfold draw rngValue
  positivity

theorem draw_lt_one (seed n : ℕ) : draw seed n < 1 := by
  unfold draw rngValue
  rw [div_lt_one (by norm_num)]
  have h : (createRng seed).nth n < U32 := by
    have : (createRng seed).nth n = rngMix (seed % U32 + (n + 1) * rngInc) := by
      simpa [createRng] using Rng.nth_eq (seed % U32) n
    rw [this]
    exact rngMix_lt _
  exact_mod_cast lt_of_lt_of_eq h (by norm_num [U32])

/-- C1: two generators created by `createRng` from the same 32-bit seed produce
identical output sequences — at every draw index, and in particular over the
first 10 draws — and the `n`-th word is the fixed function
`rngMix (s % 2^32 + (n+1) * 0x6d2b79f5)` of the seed and the call count alone,
so the sequence uses no external entropy. -/
theorem c1_createRng_deterministic (s : ℕ) (g1 g2 : Rng)
    (h1 : g1 = createRng s) (h2 : g2 = createRng s) :
    (∀ n, g1.nth n = g2.nth n) ∧
    (List.range 10).map g1.nth = (List.range 10).map g2.nth ∧
    ∀ n, g1.nth n = rngMix (s % U32 + (n + 1) * rngInc) := by
  subst h1; subst h2
  refine ⟨fun _ => rfl, rfl, fun n => ?_⟩
  simpa [createRng] using Rng.nth_eq (s % U32) n

/-- Witness for C1 at seed 42. -/
theorem c1_createRng_deterministic_witness :
    (createRng 42).nth 0 = rngMix (42 % U32 + 1 * rngInc) :=
  (c1_createRng_deterministic 42 (createRng 42) (createRng 42) rfl rfl).2.2 0

theorem NightSky.mem_createStarPositions {count seedOffset : ℕ} {st : NightSky.GeneratedStar} :
    st ∈ NightSky.createStarPositions count seedOffset ↔
      ∃ i, i < count ∧ st = NightSky.buildStar seedOffset i := by
  simp [NightSky.createStarPositions, eq_comm]

theorem StarVariant.mem_createStarPositionsV {count seedOffset : ℕ} {st : StarVariant.GeneratedStar} :
    st ∈ StarVariant.createStarPositions count seedOffset ↔
      ∃ i, i < count ∧ st = StarVariant.buildStar seedOffset i := by
  simp [StarVariant.createStarPositions, eq_comm]

/-- C2: the star descriptor at index `i` is a pure function of
`(seedOffset, i)`: it equals `buildStar seedOffset i`, the record computed
from a fresh generator seeded `seedOffset + i * 17`, and any two generation
counts larger than `i` produce identical descriptors at `i` — in the named
component and in the colour variant alike. -/
theorem c2_star_pure_function (seedOffset i c1 c2 : ℕ) (h1 : i < c1) (h2 : i < c2) :
    ((NightSky.createStarPositions c1 seedOffset)[i]? =
        some (NightSky.buildStar seedOffset i) ∧
      (NightSky.createStarPositions c2 seedOffset)[i]? =
        (NightSky.createStarPositions c1 seedOffset)[i]?) ∧
    ((StarVariant.createStarPositions c1 seedOffset)[i]? =
        some (StarVariant.buildStar seedOffset i) ∧
      (StarVariant.createStarPositions c2 seedOffset)[i]? =
        (StarVariant.createStarPositions c1 seedOffset)[i]?) := by
  simp [NightSky.createStarPositions, StarVariant.createStarPositions,
    List.getElem?_map, List.getElem?_range, h1, h2]

/-- Witness for C2 at `seedOffset = 0`, `i = 0`, counts 1 and 2. -/
theorem c2_star_pure_function_witness :
    (0 : ℕ) < 1 ∧ (0 : ℕ) < 2 ∧
      (NightSky.createStarPositions 1 0)[0]? = some (NightSky.buildStar 0 0) :=
  ⟨by decide, by decide, (c2_star_pure_function 0 0 1 2 (by decide) (by decide)).1.1⟩

set_option maxHeartbeats 1000000 in
/-- C3: every descriptor has `top, left ∈ [0,100)`, `scale ∈ [0.35,1.35)`,
`twinkleDelay ∈ [0,14)`, `twinkleDuration ∈ [3,8.5)`, for every count and
seed offset, in both revisions of the generator. -/
theorem c3_descriptor_ranges (count seedOffset : ℕ) :
    (∀ st ∈ NightSky.createStarPositions count seedOffset,
      0 ≤ st.top ∧ st.top < 100 ∧ 0 ≤ st.left ∧ st.left < 100 ∧
      0.35 ≤ st.scale ∧ st.scale < 1.35 ∧
      0 ≤ st.twinkleDelay ∧ st.twinkleDelay < 14 ∧
      3 ≤ st.twinkleDuration ∧ st.twinkleDuration < 8.5) ∧
    (∀ st ∈ StarVariant.createStarPositions count seedOffset,
      0 ≤ st.top ∧ st.top < 100 ∧ 0 ≤ st.left ∧ st.left < 100 ∧
      0.35 ≤ st.scale ∧ st.scale < 1.35 ∧
      0 ≤ st.twinkleDelay ∧ st.twinkleDelay < 14 ∧
      3 ≤ st.twinkleDuration ∧ st.twinkleDuration < 8.5) := by
  constructor
  · intro st hst
    obtain ⟨i, hi, rfl⟩ := NightSky.mem_createStarPositions.mp hst
    have h0 := draw_nonneg (seedOffset + i * 17) 0
    have h0' := draw_lt_one (seedOffset + i * 17) 0
    have h1 := draw_nonneg (seedOffset + i * 17) 1
    have h1' := draw_lt_one (seedOffset + i * 17) 1
    have h2 := draw_nonneg (seedOffset + i * 17) 2
    have h2' := draw_lt_one (seedOffset + i * 17) 2
    have h3 := draw_nonneg (seedOffset + i * 17) 3
    have h3' := draw_lt_one (seedOffset + i * 17) 3
    have h4 := draw_nonneg (seedOffset + i * 17) 4
    have h4' := draw_lt_one (seedOffset + i * 17) 4
    simp only [NightSky.buildStar]
    norm_num
    refine ⟨by linarith, by linarith, by linarith, by linarith, by linarith,
      by linarith, by linarith, by linarith, by linarith, by linarith⟩
  · intro st hst
    obtain ⟨i, hi, rfl⟩ := StarVariant.mem_createStarPositionsV.mp hst
    have h0 := draw_nonneg (seedOffset + i * 17) 0
    have h0' := draw_lt_one (seedOffset + i * 17) 0
    have h1 := draw_nonneg (seedOffset + i * 17) 1
    have h1' := draw_lt_one (seedOffset + i * 17) 1
    have h2 := draw_nonneg (seedOffset + i * 17) 2
    have h2' := draw_lt_one (seedOffset + i * 17) 2
    have h3 := draw_nonneg (seedOffset + i * 17) 3
    have h3' := draw_lt_one (seedOffset + i * 17) 3
    have h4 := draw_nonneg (seedOffset + i * 17) 4
    have h4' := draw_lt_one (seedOffset + i * 17) 4
    simp only [StarVariant.buildStar]
    split_ifs
    · norm_num
      refine ⟨by linarith, by linarith, by linarith, by linarith, by linarith,
        by linarith, by linarith, by linarith, by linarith, by linarith⟩
    · norm_num
      refine ⟨by linarith, by linarith, by linarith, by linarith, by linarith,
        by linarith, by linarith, by linarith, by linarith, by linarith⟩
    · norm_num
      refine ⟨by linarith, by linarith, by linarith, by linarith, by linarith,
        by linarith, by linarith, by linarith, by linarith, by linarith⟩

/-- Witness for C3 on the first star of a one-star layer, both revisions. -/
theorem c3_descriptor_ranges_witness :
    NightSky.buildStar 0 0 ∈ NightSky.createStarPositions 1 0 ∧
      (0 ≤ (NightSky.buildStar 0 0).top ∧ (NightSky.buildStar 0 0).top < 100 ∧
        0 ≤ (NightSky.buildStar 0 0).left ∧ (NightSky.buildStar 0 0).left < 100 ∧
        0.35 ≤ (NightSky.buildStar 0 0).scale ∧ (NightSky.buildStar 0 0).scale < 1.35 ∧
        0 ≤ (NightSky.buildStar 0 0).twinkleDelay ∧ (NightSky.buildStar 0 0).twinkleDelay < 14 ∧
        3 ≤ (NightSky.buildStar 0 0).twinkleDuration ∧
          (NightSky.buildStar 0 0).twinkleDuration < 8.5) :=
  have hmem : NightSky.buildStar 0 0 ∈ NightSky.createStarPositions 1 0 :=
    NightSky.mem_createStarPositions.mpr ⟨0, by decide, rfl⟩
  ⟨hmem, (c3_descriptor_ranges 1 0).1 _ hmem⟩

theorem StarVariant.buildStar_cool (seedOffset index : ℕ)
    (h : draw (seedOffset + index * 17) 5 < 0.7) :
    (StarVariant.buildStar seedOffset index).colorHue =
        200 + draw (seedOffset + index * 17) 6 * 20 ∧
      (StarVariant.buildStar seedOffset index).colorSaturation =
        20 + draw (seedOffset + index * 17) 7 * 30 ∧
      (StarVariant.buildStar seedOffset index).glowIntensity =
        0.6 + draw (seedOffset + index * 17) 8 * 0.4 ∧
      (StarVariant.buildStar seedOffset index).shapeVariation =
        draw (seedOffset + index * 17) 9 := by
  simp only [StarVariant.buildStar]
  rw [if_pos h]
  exact ⟨rfl, rfl, rfl, rfl⟩

theorem StarVariant.buildStar_white (seedOffset index : ℕ)
    (h1 : ¬draw (seedOffset + index * 17) 5 < 0.7)
    (h2 : draw (seedOffset + index * 17) 5 < 0.9) :
    (StarVariant.buildStar seedOffset index).colorHue = 0 ∧
      (StarVariant.buildStar seedOffset index).colorSaturation = 0 ∧
      (StarVariant.buildStar seedOffset index).glowIntensity =
        0.6 + draw (seedOffset + index * 17) 6 * 0.4 ∧
      (StarVariant.buildStar seedOffset index).shapeVariation =
        draw (seedOffset + index * 17) 7 := by
  simp only [StarVariant.buildStar]
  rw [if_neg h1, if_pos h2]
  exact ⟨rfl, rfl, rfl, rfl⟩

theorem StarVariant.buildStar_warm (seedOffset index : ℕ)
    (h1 : ¬draw (seedOffset + index * 17) 5 < 0.7)
    (h2 : ¬draw (seedOffset + index * 17) 5 < 0.9) :
    (StarVariant.buildStar seedOffset index).colorHue =
        30 + draw (seedOffset + index * 17) 6 * 30 ∧
      (StarVariant.buildStar seedOffset index).colorSaturation =
        40 + draw (seedOffset + index * 17) 7 * 40 ∧
      (StarVariant.buildStar seedOffset index).glowIntensity =
        0.6 + draw (seedOffset + index * 17) 8 * 0.4 ∧
      (StarVariant.buildStar seedOffset index).shapeVariation =
        draw (seedOffset + index * 17) 9 := by
  simp only [StarVariant.buildStar]
  rw [if_neg h1, if_neg h2]
  exact ⟨rfl, rfl, rfl, rfl⟩

/-- C9: in the variant generator the colour class of every descriptor is
decided by the single threshold draw `t ∈ [0,1)` (the sixth call of the
per-star generator): `t < 0.7` gives hue in `[200,220)` and saturation in
`[20,50)`; `0.7 ≤ t < 0.9` gives hue and saturation `0`; `0.9 ≤ t` gives hue
in `[30,60)` and saturation in `[40,80)`; and every descriptor has
`glowIntensity ∈ [0.6,1)` and `shapeVariation ∈ [0,1)`. -/
theorem c9_variant_color_classes (seedOffset index : ℕ) :
    0 ≤ draw (seedOffset + index * 17) 5 ∧ draw (seedOffset + index * 17) 5 < 1 ∧
    (draw (seedOffset + index * 17) 5 < 0.7 →
      200 ≤ (StarVariant.buildStar seedOffset index).colorHue ∧
      (StarVariant.buildStar seedOffset index).colorHue < 220 ∧
      20 ≤ (StarVariant.buildStar seedOffset index).colorSaturation ∧
      (StarVariant.buildStar seedOffset index).colorSaturation < 50) ∧
    (¬draw (seedOffset + index * 17) 5 < 0.7 → draw (seedOffset + index * 17) 5 < 0.9 →
      (StarVariant.buildStar seedOffset index).colorHue = 0 ∧
      (StarVariant.buildStar seedOffset index).colorSaturation = 0) ∧
    (¬draw (seedOffset + index * 17) 5 < 0.9 →
      30 ≤ (StarVariant.buildStar seedOffset index).colorHue ∧
      (StarVariant.buildStar seedOffset index).colorHue < 60 ∧
      40 ≤ (StarVariant.buildStar seedOffset index).colorSaturation ∧
      (StarVariant.buildStar seedOffset index).colorSaturation < 80) ∧
    0.6 ≤ (StarVariant.buildStar seedOffset index).glowIntensity ∧
    (StarVariant.buildStar seedOffset index).glowIntensity < 1 ∧
    0 ≤ (StarVariant.buildStar seedOffset index).shapeVariation ∧
    (StarVariant.buildStar seedOffset index).shapeVariation < 1 := by
  have d6 := draw_nonneg (seedOffset + index * 17) 6
  have d6' := draw_lt_one (seedOffset + index * 17) 6
  have d7 := draw_nonneg (seedOffset + index * 17) 7
  have d7' := draw_lt_one (seedOffset + index * 17) 7
  have d8 := draw_nonneg (seedOffset + index * 17) 8
  have d8' := draw_lt_one (seedOffset + index * 17) 8
  have d9 := draw_nonneg (seedOffset + index * 17) 9
  have d9' := draw_lt_one (seedOffset + index * 17) 9
  refine ⟨draw_nonneg _ 5, draw_lt_one _ 5, ?_, ?_, ?_, ?_⟩
  · intro h
    obtain ⟨hh, hs, -, -⟩ := StarVariant.buildStar_cool seedOffset index h
    rw [hh, hs]
    refine ⟨by linarith, by linarith, by linarith, by linarith⟩
  · intro h1 h2
    obtain ⟨hh, hs, -, -⟩ := StarVariant.buildStar_white seedOffset index h1 h2
    exact ⟨hh, hs⟩
  · intro h2
    by_cases h1 : draw (seedOffset + index * 17) 5 < 0.7
    · exact absurd (h1.trans_le (by norm_num)) h2
    · obtain ⟨hh, hs, -, -⟩ := StarVariant.buildStar_warm seedOffset index h1 h2
      rw [hh, hs]
      refine ⟨by linarith, by linarith, by linarith, by linarith⟩
  · by_cases h1 : draw (seedOffset + index * 17) 5 < 0.7
    · obtain ⟨-, -, hg, hv⟩ := StarVariant.buildStar_cool seedOffset index h1
      rw [hg, hv]
      refine ⟨by linarith, by linarith, by linarith, by linarith⟩
    · by_cases h2 : draw (seedOffset + index * 17) 5 < 0.9
      · obtain ⟨-, -, hg, hv⟩ := StarVariant.buildStar_white seedOffset index h1 h2
        rw [hg, hv]
        refine ⟨by linarith, by linarith, by linarith, by linarith⟩
      · obtain ⟨-, -, hg, hv⟩ := StarVariant.buildStar_warm seedOffset index h1 h2
        rw [hg, hv]
        refine ⟨by linarith, by linarith, by linarith, by linarith⟩

theorem draw_zero_five_lt : draw (0 + 0 * 17) 5 < 0.7 := by
  have h : (createRng (0 + 0 * 17)).nth 5 = 2340967985 := by decide
  unfold draw rngValue
  rw [h]
  norm_num

/-- Witness for C9 at `(0, 0)`: the threshold draw falls in the cool bucket. -/
theorem c9_variant_color_classes_witness :
    draw (0 + 0 * 17) 5 < 0.7 ∧
      (200 ≤ (StarVariant.buildStar 0 0).colorHue ∧
        (StarVariant.buildStar 0 0).colorHue < 220 ∧
        20 ≤ (StarVariant.buildStar 0 0).colorSaturation ∧
        (StarVariant.buildStar 0 0).colorSaturation < 50) :=
  ⟨draw_zero_five_lt, (c9_variant_color_classes 0 0).2.2.1 draw_zero_five_lt⟩

theorem easeIter_sub (t s : ℚ) (n : ℕ) :
    t - easeIter t n s = (t - s) * (1 - easing) ^ n := by
  induction n generalizing s with
  | zero => simp [easeIter]
  | succ n ih =>
    show t - easeIter t n (easeStep t s) = _
    rw [ih]
    unfold easeStep
    ring

/-- C4: with the target held fixed and both start value and target in
`[-2,2]`, the easing `smoothed += (target - smoothed) * 0.08` strictly
shrinks the absolute distance to the target on every frame on which it is
non-zero, and after 200 frames the distance is within the `0.001`
stop-threshold. -/
theorem c4_parallax_settles (s t : ℚ)
    (hs1 : -2 ≤ s) (hs2 : s ≤ 2) (ht1 : -2 ≤ t) (ht2 : t ≤ 2) :
    (∀ n, t - easeIter t n s ≠ 0 →
      |t - easeIter t (n + 1) s| < |t - easeIter t n s|) ∧
    |t - easeIter t 200 s| ≤ 0.001 := by
  constructor
  · intro n hne
    have hstep : t - easeIter t (n + 1) s = (t - easeIter t n s) * (1 - easing) := by
      rw [easeIter_sub, easeIter_sub]
      ring
    rw [hstep, abs_mul]
    have h1 : |1 - easing| = 23 / 25 := by
      rw [abs_of_pos] <;> norm_num [easing]
    rw [h1]
    exact mul_lt_of_lt_one_right (abs_pos.mpr hne) (by norm_num)
  · rw [easeIter_sub, abs_mul]
    have hts : |t - s| ≤ 4 := abs_le.mpr ⟨by linarith, by linarith⟩
    have h1 : |1 - easing| = 23 / 25 := by
      rw [abs_of_pos] <;> norm_num [easing]
    rw [abs_pow, h1]
    have hkey : (4 : ℚ) * (23 / 25) ^ 200 ≤ 0.001 := by norm_num
    have hp : (0 : ℚ) ≤ (23 / 25 : ℚ) ^ 200 := by positivity
    nlinarith [mul_le_mul_of_nonneg_right hts hp]

/-- Witness for C4 at start value 1 and target 0. -/
theorem c4_parallax_settles_witness :
    ((-2 : ℚ) ≤ 1 ∧ (1 : ℚ) ≤ 2 ∧ (-2 : ℚ) ≤ 0 ∧ (0 : ℚ) ≤ 2) ∧
      |(0 : ℚ) - easeIter 0 200 1| ≤ 0.001 :=
  ⟨by norm_num,
    (c4_parallax_settles 1 0 (by norm_num) (by norm_num) (by norm_num) (by norm_num)).2⟩

theorem stringAppendLeftInj (p : String) {a b : String} (h : p ++ a = p ++ b) : a = b := by
  apply String.ext
  have hd := congrArg String.data h
  simpa only [String.data_append] using List.append_cancel_left hd

set_option maxRecDepth 8000 in
set_option maxHeartbeats 4000000 in
theorem decimalReprNodup : ((List.range 250).map fun n => toString n).Nodup := by decide

theorem toString_injOn_250 {i j : ℕ} (hi : i < 250) (hj : j < 250)
    (h : (toString i : String) = toString j) : i = j :=
  List.inj_on_of_nodup_map decimalReprNodup (List.mem_range.mpr hi) (List.mem_range.mpr hj) h

theorem encHeadNe {p q : String} (hp : p.data ≠ []) (hq : q.data ≠ [])
    (hne : p.data.head? ≠ q.data.head?) (s t : String) : p ++ s ≠ q ++ t := by
  intro h
  have hd := congrArg String.data h
  rw [String.data_append, String.data_append] at hd
  have h1 : (p.data ++ s.data).head? = p.data.head? := List.head?_append_of_ne_nil _ hp
  have h2 : (q.data ++ t.data).head? = q.data.head? := List.head?_append_of_ne_nil _ hq
  exact hne ((h1.symm.trans (by rw [hd])).trans h2)

theorem genericIdsNodup (numLayers count : ℕ) (hL : numLayers ≤ 4) (hc : count ≤ 250) :
    (((List.range numLayers).map fun L =>
      (List.range count).map fun i => toString (L * 311) ++ "-" ++ toString i).flatten).Nodup := by
  rw [List.nodup_flatten]
  constructor
  · intro l hl
    obtain ⟨L, -, rfl⟩ := List.mem_map.mp hl
    refine List.Nodup.map_on ?_ (List.nodup_range count)
    intro i hi j hj hEq
    have hi' := List.mem_range.mp hi
    have hj' := List.mem_range.mp hj
    have h2 : (toString i : String) = toString j :=
      stringAppendLeftInj (toString (L * 311) ++ "-") hEq
    exact toString_injOn_250 (lt_of_lt_of_le hi' hc) (lt_of_lt_of_le hj' hc) h2
  · rw [List.pairwise_map]
    refine (List.pairwise_lt_range numLayers).imp_of_mem ?_
    intro L1 L2 h1 h2 hlt x hx1 hx2
    have hb1 : L1 < 4 := lt_of_lt_of_le (List.mem_range.mp h1) hL
    have hb2 : L2 < 4 := lt_of_lt_of_le (List.mem_range.mp h2) hL
    obtain ⟨i, -, rfl⟩ := List.mem_map.mp hx1
    obtain ⟨j, -, hEq⟩ := List.mem_map.mp hx2
    interval_cases L1 <;> interval_cases L2 <;>
      first
        | omega
        | exact encHeadNe (by decide) (by decide) (by decide) _ _ hEq

theorem genericSeedsNodup (numLayers count : ℕ) (hL : numLayers ≤ 4) :
    (((List.range numLayers).map fun L =>
      (List.range count).map fun i => L * 311 + i * 17).flatten).Nodup := by
  rw [List.nodup_flatten]
  constructor
  · intro l hl
    obtain ⟨L, -, rfl⟩ := List.mem_map.mp hl
    refine List.Nodup.map_on ?_ (List.nodup_range count)
    intro i hi j hj hEq
    omega
  · rw [List.pairwise_map]
    refine (List.pairwise_lt_range numLayers).imp_of_mem ?_
    intro L1 L2 h1 h2 hlt x hx1 hx2
    have hb2 : L2 < 4 := lt_of_lt_of_le (List.mem_range.mp h2) hL
    obtain ⟨i, -, rfl⟩ := List.mem_map.mp hx1
    obtain ⟨j, -, hEq⟩ := List.mem_map.mp hx2
    omega

theorem NightSky.buildStar_id (seedOffset index : ℕ) :
    (NightSky.buildStar seedOffset index).id =
      toString seedOffset ++ "-" ++ toString index := rfl

theorem StarVariant.buildStar_idV (seedOffset index : ℕ) :
    (StarVariant.buildStar seedOffset index).id =
      toString seedOffset ++ "-" ++ toString index := by
  simp only [StarVariant.buildStar]
  split_ifs <;> rfl

theorem NightSky.layerStarCount_eq : NightSky.layerStarCount = 55 := by
  norm_num [NightSky.layerStarCount, jsRound, NightSky.STAR_COUNT, NightSky.STAR_LAYERS]
  rfl

theorem StarVariant.layerStarCount_eqV : StarVariant.layerStarCount = 250 := by
  norm_num [StarVariant.layerStarCount, jsRound, StarVariant.STAR_COUNT, StarVariant.STAR_LAYERS]
  rfl

theorem NightSky.ids_eq :
    (NightSky.starLayers.flatten).map (fun st => st.id) =
      ((List.range 4).map fun L =>
        (List.range 55).map fun i => toString (L * 311) ++ "-" ++ toString i).flatten := by
  simp only [NightSky.starLayers, NightSky.createStarPositions, NightSky.STAR_LAYERS,
    NightSky.layerStarCount_eq, List.map_flatten, List.map_map, Function.comp_def,
    NightSky.buildStar_id]

theorem StarVariant.ids_eqV :
    (StarVariant.starLayers.flatten).map (fun st => st.id) =
      ((List.range 3).map fun L =>
        (List.range 250).map fun i => toString (L * 311) ++ "-" ++ toString i).flatten := by
  simp only [StarVariant.starLayers, StarVariant.createStarPositions, StarVariant.STAR_LAYERS,
    StarVariant.layerStarCount_eqV, List.map_flatten, List.map_map, Function.comp_def,
    StarVariant.buildStar_idV]

/-- C10: with the configured constants — 4 layers of `round(220/4)` stars at
seed offsets `layerIndex * 311` in the named component, 3 layers of
`round(750/3)` stars in the variant — all star identifiers
`toString seedOffset ++ "-" ++ toString index` are pairwise distinct across
the whole field, and all underlying per-star generator seeds
`seedOffset + index * 17` are pairwise distinct as well. -/
theorem c10_identifiers_and_seeds_distinct :
    ((NightSky.starLayers.flatten).map fun st => st.id).Nodup ∧
      NightSky.starSeeds.Nodup ∧
      ((StarVariant.starLayers.flatten).map fun st => st.id).Nodup ∧
      StarVariant.starSeeds.Nodup := by
  refine ⟨?_, ?_, ?_, ?_⟩
  · rw [NightSky.ids_eq]
    exact genericIdsNodup 4 55 (by norm_num) (by norm_num)
  · unfold NightSky.starSeeds
    exact genericSeedsNodup NightSky.STAR_LAYERS NightSky.layerStarCount
      (by norm_num [NightSky.STAR_LAYERS])
  · rw [StarVariant.ids_eqV]
    exact genericIdsNodup 3 250 (by norm_num) (by norm_num)
  · unfold StarVariant.starSeeds
    exact genericSeedsNodup StarVariant.STAR_LAYERS StarVariant.layerStarCount
      (by norm_num [StarVariant.STAR_LAYERS])

theorem Shooting.inv_initial : Shooting.Inv Shooting.initialEffect := by
  unfold Shooting.Inv
  refine ⟨?_, ?_, ?_, ?_, ?_⟩ <;>
    simp [Shooting.initialEffect, Shooting.timerTracked]

theorem Shooting.inv_applyFire (s : Shooting.EffectState) (tid : ℕ) (d : Shooting.SpawnDraws)
    (h : Shooting.Inv s) : Shooting.Inv (Shooting.applyFire s tid d) := by
  obtain ⟨h1, h2, h3, h4, h5⟩ := h
  unfold Shooting.applyFire
  cases hf : Shooting.findTimer s tid with
  | none => exact ⟨h1, h2, h3, h4, h5⟩
  | some t =>
    dsimp only
    have htmem : t ∈ s.pendingTimers := List.mem_of_find?_eq_some hf
    have htid : t.id = tid := by
      have hp := List.find?_some hf
      simpa using hp
    have hPmem : ∀ u ∈ s.pendingTimers.filter (fun u => u.id != tid),
        u ∈ s.pendingTimers ∧ u.id ≠ tid := by
      intro u hu
      rw [List.mem_filter] at hu
      exact ⟨hu.1, by simpa using hu.2⟩
    have hPsub :
        List.Sublist
          ((s.pendingTimers.filter (fun u => u.id != tid)).map fun t => t.id)
          (s.pendingTimers.map fun t => t.id) :=
      (List.filter_sublist _).map _
    cases hk : t.kind with
    | spawn =>
      dsimp only
      have hspawnId : s.timeoutId = some tid := by
        have := h3 t htmem
        unfold Shooting.timerTracked at this
        rw [hk] at this
        rw [htid] at this
        exact this
      refine ⟨?_, ?_, ?_, ?_, ?_⟩
      · intro u hu
        rcases List.mem_append.mp hu with huP | huA
        · exact lt_trans (h1 u (hPmem u huP).1) (by dsimp only; omega)
        · simp only [List.mem_cons, List.mem_singleton] at huA
          rcases huA with rfl | rfl | hFalse
          · simp
          · simp
          · cases hFalse
      · rw [List.map_append, List.nodup_append]
        refine ⟨h2.sublist hPsub, by simp, ?_⟩
        intro a haP haA
        obtain ⟨u, huP, rfl⟩ := List.mem_map.mp haP
        have hub := h1 u (hPmem u huP).1
        simp only [List.map_cons, List.map_nil, List.mem_cons, List.mem_singleton] at haA
        rcases haA with he | he | hFalse
        · omega
        · omega
        · cases hFalse
      · intro u hu
        rcases List.mem_append.mp hu with huP | huA
        · obtain ⟨humem, huid⟩ := hPmem u huP
          have htr := h3 u humem
          unfold Shooting.timerTracked at htr ⊢
          cases huk : u.kind with
          | spawn =>
            rw [huk] at htr
            rw [hspawnId] at htr
            exact absurd (Option.some.inj htr).symm huid
          | removal k2 =>
            rw [huk] at htr
            exact List.mem_append_left _ htr
        · simp only [List.mem_cons, List.mem_singleton] at huA
          rcases huA with rfl | rfl | hFalse
          · unfold Shooting.timerTracked
            exact List.mem_append_right _ (by simp)
          · unfold Shooting.timerTracked
            rfl
          · cases hFalse
      · rw [List.map_append, List.pairwise_append]
        refine ⟨h4, by simp, ?_⟩
        intro a haO b hbN
        obtain ⟨st, hst, rfl⟩ := List.mem_map.mp haO
        simp only [List.map_cons, List.map_nil, List.mem_singleton] at hbN
        subst hbN
        exact h5 st hst
      · intro st hst
        rcases List.mem_append.mp hst with hO | hN
        · exact lt_trans (h5 st hO) (by dsimp only; omega)
        · simp only [List.mem_singleton] at hN
          subst hN
          simp [Shooting.mkShootingStar]
    | removal k =>
      dsimp only
      refine ⟨?_, ?_, ?_, ?_, ?_⟩
      · intro u hu
        exact h1 u (hPmem u hu).1
      · exact h2.sublist hPsub
      · intro u hu
        obtain ⟨humem, huid⟩ := hPmem u hu
        have htr := h3 u humem
        unfold Shooting.timerTracked at htr ⊢
        cases huk : u.kind with
        | spawn =>
          rw [huk] at htr
          exact htr
        | removal k2 =>
          rw [huk] at htr
          rw [List.mem_filter]
          exact ⟨htr, by simpa using huid⟩
      · exact h4.sublist ((List.filter_sublist _).map _)
      · intro st hst
        exact h5 st (List.mem_of_mem_filter hst)

theorem Shooting.inv_run (events : List (ℕ × Shooting.SpawnDraws)) :
    Shooting.Inv (Shooting.run events) := by
  unfold Shooting.run
  have key : ∀ (l : List (ℕ × Shooting.SpawnDraws)) (s : Shooting.EffectState),
      Shooting.Inv s → Shooting.Inv (l.foldl (fun s e => Shooting.applyFire s e.1 e.2) s) := by
    intro l
    induction l with
    | nil => intro s hs; exact hs
    | cons e tl ih =>
      intro s hs
      exact ih _ (Shooting.inv_applyFire s e.1 e.2 hs)
  exact key events _ Shooting.inv_initial

/-- C5: after the cleanup runs on any reachable effect state, no spawn or
removal timer remains pending, the tracking set is empty, and firing any
timer id afterwards is a no-op: the shooting-star list is never mutated
after teardown. -/
theorem c5_cleanup (events : List (ℕ × Shooting.SpawnDraws)) :
    (Shooting.cleanup (Shooting.run events)).pendingTimers = [] ∧
    (Shooting.cleanup (Shooting.run events)).removalTimeouts = [] ∧
    ∀ tid d, Shooting.applyFire (Shooting.cleanup (Shooting.run events)) tid d =
      Shooting.cleanup (Shooting.run events) := by
  obtain ⟨-, -, h3, -, -⟩ := Shooting.inv_run events
  have hempty : (Shooting.cleanup (Shooting.run events)).pendingTimers = [] := by
    unfold Shooting.cleanup
    dsimp only
    rw [List.filter_eq_nil_iff]
    intro t ht
    have htr := h3 t ht
    unfold Shooting.timerTracked at htr
    cases hk : t.kind with
    | spawn =>
      rw [hk] at htr
      simp [htr]
    | removal k =>
      rw [hk] at htr
      dsimp only at htr
      simp
      intro hne
      exact htr
  refine ⟨hempty, rfl, ?_⟩
  intro tid d
  unfold Shooting.applyFire Shooting.findTimer
  rw [hempty]
  rfl

theorem filterNeLength {α : Type} (key : α → ℕ) (l : List α) (hnd : (l.map key).Nodup)
    (x : α) (hx : x ∈ l) (k : ℕ) (hk : key x = k) :
    l.length = (l.filter fun a => key a != k).length + 1 := by
  induction l with
  | nil => cases hx
  | cons a tl ih =>
    rw [List.map_cons, List.nodup_cons] at hnd
    obtain ⟨ha, htl⟩ := hnd
    rcases List.mem_cons.mp hx with rfl | hmem
    · rw [List.filter_cons, if_neg (by simp [hk])]
      have hall : tl.filter (fun b => key b != k) = tl := by
        apply List.filter_eq_self.mpr
        intro b hb
        simp only [bne_iff_ne, ne_eq]
        intro he
        exact ha (hk ▸ he ▸ List.mem_map_of_mem key hb)
      rw [hall]
      simp
    · have hak : (key a != k) = true := by
        simp only [bne_iff_ne, ne_eq]
        intro he
        exact ha (he ▸ hk ▸ List.mem_map_of_mem key hmem)
      rw [List.filter_cons, if_pos hak]
      simp only [List.length_cons]
      rw [ih htl hmem]

/-- C6: in any reachable effect state, when the pending removal timer for
star id `k` fires, the active list becomes its filter by `id ≠ k`: a
sublist of the original (relative order preserved), containing every entry
whose id differs from `k` and nothing else, and — star ids being unique —
exactly one entry shorter whenever an entry with id `k` was present. -/
theorem c6_removal (events : List (ℕ × Shooting.SpawnDraws)) (tid k : ℕ) (dMs : ℚ)
    (d : Shooting.SpawnDraws)
    (h : Shooting.findTimer (Shooting.run events) tid =
      some ⟨tid, Shooting.TimerKind.removal k, dMs⟩) :
    (Shooting.applyFire (Shooting.run events) tid d).shootingStars =
        (Shooting.run events).shootingStars.filter (fun st => st.id != k) ∧
      List.Sublist ((Shooting.applyFire (Shooting.run events) tid d).shootingStars)
        ((Shooting.run events).shootingStars) ∧
      (∀ st ∈ (Shooting.run events).shootingStars, st.id ≠ k →
        st ∈ (Shooting.applyFire (Shooting.run events) tid d).shootingStars) ∧
      (∀ st ∈ (Shooting.applyFire (Shooting.run events) tid d).shootingStars,
        st ∈ (Shooting.run events).shootingStars ∧ st.id ≠ k) ∧
      (∀ st ∈ (Shooting.run events).shootingStars, st.id = k →
        (Shooting.run events).shootingStars.length =
          (Shooting.applyFire (Shooting.run events) tid d).shootingStars.length + 1) := by
  obtain ⟨-, -, -, h4, -⟩ := Shooting.inv_run events
  have hstars : (Shooting.applyFire (Shooting.run events) tid d).shootingStars =
      (Shooting.run events).shootingStars.filter (fun st => st.id != k) := by
    unfold Shooting.applyFire
    rw [h]
  refine ⟨hstars, ?_, ?_, ?_, ?_⟩
  · rw [hstars]
    exact List.filter_sublist _
  · intro st hst hne
    rw [hstars, List.mem_filter]
    exact ⟨hst, by simpa using hne⟩
  · intro st hst
    rw [hstars, List.mem_filter] at hst
    exact ⟨hst.1, by simpa using hst.2⟩
  · intro st hst hid
    rw [hstars]
    have hnd : ((Shooting.run events).shootingStars.map fun st => st.id).Nodup :=
      h4.imp fun hlt => Nat.ne_of_lt hlt
    exact filterNeLength (fun st => st.id) _ hnd st hst k hid

/-- C8: the mount schedules the first spawn 2500 ms out; every firing of a
pending spawn timer appends the star built from the current counter with
`top ∈ [0,40)` and `left ∈ [40,60)`, schedules and tracks a removal timer
for that star's id with delay exactly `(duration + delay) * 1000` ms, and
schedules the next spawn after `4000 + r * 5000 ∈ [4000,9000)` ms. -/
theorem c8_spawn (s : Shooting.EffectState) (tid : ℕ) (dMs : ℚ) (d : Shooting.SpawnDraws)
    (hTop : 0 ≤ d.rTop) (hTop1 : d.rTop < 1)
    (hLeft : 0 ≤ d.rLeft) (hLeft1 : d.rLeft < 1)
    (hNext : 0 ≤ d.rNext) (hNext1 : d.rNext < 1)
    (h : Shooting.findTimer s tid = some ⟨tid, Shooting.TimerKind.spawn, dMs⟩) :
    Shooting.initialEffect.pendingTimers = [⟨0, Shooting.TimerKind.spawn, 2500⟩] ∧
    Shooting.initialEffect.timeoutId = some 0 ∧
    (Shooting.applyFire s tid d).shootingStars =
      s.shootingStars ++ [Shooting.mkShootingStar s.starId d] ∧
    0 ≤ (Shooting.mkShootingStar s.starId d).top ∧
    (Shooting.mkShootingStar s.starId d).top < 40 ∧
    40 ≤ (Shooting.mkShootingStar s.starId d).left ∧
    (Shooting.mkShootingStar s.starId d).left < 60 ∧
    (Shooting.applyFire s tid d).pendingTimers =
      (s.pendingTimers.filter fun u => u.id != tid) ++
        [⟨s.nextTimerId, Shooting.TimerKind.removal s.starId,
            ((Shooting.mkShootingStar s.starId d).duration +
              (Shooting.mkShootingStar s.starId d).delay) * 1000⟩,
          ⟨s.nextTimerId + 1, Shooting.TimerKind.spawn, 4000 + d.rNext * 5000⟩] ∧
    (Shooting.applyFire s tid d).removalTimeouts = s.removalTimeouts ++ [s.nextTimerId] ∧
    (Shooting.applyFire s tid d).timeoutId = some (s.nextTimerId + 1) ∧
    4000 ≤ 4000 + d.rNext * 5000 ∧ 4000 + d.rNext * 5000 < 9000 := by
  have happ : Shooting.applyFire s tid d =
      { shootingStars := s.shootingStars ++ [Shooting.mkShootingStar s.starId d]
        starId := s.starId + 1
        removalTimeouts := s.removalTimeouts ++ [s.nextTimerId]
        timeoutId := some (s.nextTimerId + 1)
        pendingTimers := (s.pendingTimers.filter fun u => u.id != tid) ++
          [⟨s.nextTimerId, Shooting.TimerKind.removal s.starId,
              ((Shooting.mkShootingStar s.starId d).duration +
                (Shooting.mkShootingStar s.starId d).delay) * 1000⟩,
            ⟨s.nextTimerId + 1, Shooting.TimerKind.spawn, 4000 + d.rNext * 5000⟩]
        nextTimerId := s.nextTimerId + 2 } := by
    unfold Shooting.applyFire
    rw [h]
    rfl
  rw [happ]
  refine ⟨rfl, rfl, rfl, ?_, ?_, ?_, ?_, rfl, rfl, rfl, by linarith, by linarith⟩
  · simp only [Shooting.mkShootingStar]
    positivity
  · simp only [Shooting.mkShootingStar]
    linarith
  · simp only [Shooting.mkShootingStar]
    linarith
  · simp only [Shooting.mkShootingStar]
    linarith

theorem Parallax.pxStep_inv (s : Parallax.PxState) (e : Parallax.PxEvent)
    (h : s.framesPending = s.raf.toList) :
    (Parallax.pxStep s e).framesPending = (Parallax.pxStep s e).raf.toList := by
  obtain ⟨tg, sm, raf, fp, nf⟩ := s
  dsimp only at h
  cases e with
  | move cx cy rl rt rWidth rHeight =>
    cases raf with
    | some f =>
      simpa [Parallax.pxStep, Parallax.handlePointerMove] using h
    | none =>
      simp only [Option.toList] at h
      simp [Parallax.pxStep, Parallax.handlePointerMove, Parallax.requestFrame, h]
  | leave =>
    cases raf with
    | some f =>
      simpa [Parallax.pxStep, Parallax.handlePointerLeave] using h
    | none =>
      simp only [Option.toList] at h
      simp [Parallax.pxStep, Parallax.handlePointerLeave, Parallax.requestFrame, h]
  | frame fid =>
    cases raf with
    | none =>
      simp only [Option.toList] at h
      subst h
      simp [Parallax.pxStep, Parallax.fireFrame]
    | some f =>
      simp only [Option.toList] at h
      subst h
      by_cases hfid : fid = f
      · subst hfid
        simp [Parallax.pxStep, Parallax.fireFrame, Parallax.requestFrame]
        split_ifs <;> simp
      · simp [Parallax.pxStep, Parallax.fireFrame, hfid]

theorem Parallax.pxRun_inv (events : List Parallax.PxEvent) :
    (Parallax.pxRun events).framesPending = (Parallax.pxRun events).raf.toList := by
  unfold Parallax.pxRun
  have key : ∀ (l : List Parallax.PxEvent) (s : Parallax.PxState),
      s.framesPending = s.raf.toList →
      (l.foldl Parallax.pxStep s).framesPending = (l.foldl Parallax.pxStep s).raf.toList := by
    intro l
    induction l with
    | nil => intro s hs; exact hs
    | cons e tl ih =>
      intro s hs
      exact ih _ (Parallax.pxStep_inv s e hs)
  exact key events _ rfl

/-- C7: the parallax driver keeps at most one animation frame pending: in
every reachable state the pending-frame queue is exactly the content of
`rafRef` (so has length at most one); a pointer-move or pointer-leave
handler leaves the queue untouched whenever a frame is already scheduled;
and a firing frame ends idle (`rafRef = null`) exactly when both axes'
post-step distances to the target are within 0.001, re-scheduling itself
otherwise. -/
theorem c7_single_frame :
    (∀ events : List Parallax.PxEvent,
      (Parallax.pxRun events).framesPending = (Parallax.pxRun events).raf.toList ∧
      (Parallax.pxRun events).framesPending.length ≤ 1) ∧
    (∀ (s : Parallax.PxState) (f : ℕ) (cx cy rl rt rWidth rHeight : ℚ), s.raf = some f →
      (Parallax.handlePointerMove s cx cy rl rt rWidth rHeight).framesPending =
          s.framesPending ∧
        (Parallax.handlePointerMove s cx cy rl rt rWidth rHeight).raf = s.raf) ∧
    (∀ (s : Parallax.PxState) (f : ℕ), s.raf = some f →
      (Parallax.handlePointerLeave s).framesPending = s.framesPending ∧
        (Parallax.handlePointerLeave s).raf = s.raf) ∧
    (∀ (s : Parallax.PxState) (fid : ℕ), fid ∈ s.framesPending →
      ((Parallax.fireFrame s fid).raf = none ↔
        |s.target.1 - easeStep s.target.1 s.smooth.1| ≤ 0.001 ∧
          |s.target.2 - easeStep s.target.2 s.smooth.2| ≤ 0.001)) := by
  refine ⟨?_, ?_, ?_, ?_⟩
  · intro events
    have hinv := Parallax.pxRun_inv events
    refine ⟨hinv, ?_⟩
    rw [hinv]
    cases (Parallax.pxRun events).raf <;> simp
  · intro s f cx cy rl rt rWidth rHeight hr
    obtain ⟨tg, sm, raf, fp, nf⟩ := s
    dsimp only at hr
    subst hr
    exact ⟨rfl, rfl⟩
  · intro s f hr
    obtain ⟨tg, sm, raf, fp, nf⟩ := s
    dsimp only at hr
    subst hr
    exact ⟨rfl, rfl⟩
  · intro s fid hfid
    obtain ⟨tg, sm, raf, fp, nf⟩ := s
    dsimp only at hfid ⊢
    unfold Parallax.fireFrame
    rw [if_pos hfid]
    dsimp only
    split_ifs with hc
    · constructor
      · intro hnone
        cases hnone
      · intro hle
        rcases hc with hx | hy
        · exact absurd hx (not_lt.mpr hle.1)
        · exact absurd hy (not_lt.mpr hle.2)
    · push_neg at hc
      exact iff_of_true rfl hc

/-- Witness for C6: after firing the initial spawn timer with all-zero
draws, removal timer 1 for star 0 is pending; firing it empties the list. -/
theorem c6_removal_witness :
    Shooting.findTimer (Shooting.run [(0, ⟨0, 0, 0, 0, 0⟩)]) 1 =
        some ⟨1, Shooting.TimerKind.removal 0, (1.2 + (0 : ℚ) * 0.8 + (0 : ℚ) * 0.3) * 1000⟩ ∧
      (Shooting.applyFire (Shooting.run [(0, ⟨0, 0, 0, 0, 0⟩)]) 1 ⟨0, 0, 0, 0, 0⟩).shootingStars =
        (Shooting.run [(0, ⟨0, 0, 0, 0, 0⟩)]).shootingStars.filter (fun st => st.id != 0) :=
  ⟨by rfl,
    (c6_removal [(0, ⟨0, 0, 0, 0, 0⟩)] 1 0
      ((1.2 + (0 : ℚ) * 0.8 + (0 : ℚ) * 0.3) * 1000) ⟨0, 0, 0, 0, 0⟩ (by rfl)).1⟩

/-- Witness for C7: with a frame already scheduled, a pointer-leave event
does not change the pending-frame queue. -/
theorem c7_single_frame_witness :
    (⟨(0, 0), (0, 0), some 0, [0], 1⟩ : Parallax.PxState).raf = some 0 ∧
      (Parallax.handlePointerLeave ⟨(0, 0), (0, 0), some 0, [0], 1⟩).framesPending =
        (⟨(0, 0), (0, 0), some 0, [0], 1⟩ : Parallax.PxState).framesPending :=
  ⟨rfl, (c7_single_frame.2.2.1 ⟨(0, 0), (0, 0), some 0, [0], 1⟩ 0 rfl).1⟩

/-- Witness for C8: firing the initial spawn timer with draws 1/2. -/
theorem c8_spawn_witness :
    Shooting.findTimer Shooting.initialEffect 0 =
        some ⟨0, Shooting.TimerKind.spawn, 2500⟩ ∧
      0 ≤ (Shooting.mkShootingStar Shooting.initialEffect.starId
            ⟨1/2, 1/2, 1/2, 1/2, 1/2⟩).top ∧
      (Shooting.mkShootingStar Shooting.initialEffect.starId
            ⟨1/2, 1/2, 1/2, 1/2, 1/2⟩).top < 40 :=
  ⟨by rfl,
    (c8_spawn Shooting.initialEffect 0 2500 ⟨1/2, 1/2, 1/2, 1/2, 1/2⟩
      (by norm_num) (by norm_num) (by norm_num) (by norm_num) (by norm_num) (by norm_num)
      (by rfl)).2.2.2.1,
    (c8_spawn Shooting.initialEffect 0 2500 ⟨1/2, 1/2, 1/2, 1/2, 1/2⟩
      (by norm_num) (by norm_num) (by norm_num) (by norm_num) (by norm_num) (by norm_num)
      (by rfl)).2.2.2.2.1⟩
